import Mathlib

/-!
Verification of the CHTC WandB job-lifecycle logger
(`chtc-tools/scripts/wandb_logger.py`).

The development shallowly embeds the logger's pure computations (submit-file
parsing, log-file parsing, run-name/config/tag derivation in `init_run`) as
Lean functions, and the two facade operations `log_job_submission` and
`log_job_completion` as functions from an explicit environment (local
filesystem contents, success/failure of each backend operation) to a trace of
backend events together with a normal return value or a propagated exception.

Python dictionaries are modelled as association lists without duplicate keys,
with in-place update. Python exceptions are modelled with `Except`: a step
that raises short-circuits the rest of the function body, exactly as in the
source, which uses no try/finally around the facade bodies.
-/

set_option autoImplicit false

namespace WandbLogger

/-- A scalar value stored in one of the logger's Python dictionaries
(configuration entries, metric values). -/
inductive Val where
  | str : String → Val
  | num : Int → Val
deriving DecidableEq, Repr

/-- A Python dict with string keys: an association list, insertion order
preserved, no duplicate keys arise from the operations below. -/
abbrev Config := List (String × Val)

/-- Python dict assignment `d[k] = v`: replace the first entry with key `k`
in place, or append a new entry at the end. -/
def setKey : Config → String → Val → Config
  | [], k, v => [(k, v)]
  | (k', v') :: rest, k, v =>
    if k' = k then (k, v) :: rest else (k', v') :: setKey rest k v

/-- Python dict lookup `d.get(k)`. -/
def getKey? : Config → String → Option Val
  | [], _ => none
  | (k', v) :: rest, k => if k' = k then some v else getKey? rest k

/-- Python `{**a, **b}`: the entries of `a`, updated by the entries of `b`
(so `b` wins on a key collision). -/
def mergeDicts (a b : Config) : Config :=
  b.foldl (fun acc p => setKey acc p.1 p.2) a

/-- First-some choice on options, used to state lookup properties of
`mergeDicts`. -/
def orElseO (a b : Option Val) : Option Val :=
  match a with
  | some v => some v
  | none => b

theorem getKey?_setKey (c : Config) (k k' : String) (v : Val) :
    getKey? (setKey c k v) k' = if k = k' then some v else getKey? c k' := by
  induction c with
  | nil =>
    by_cases h : k = k' <;> simp [setKey, getKey?, h]
  | cons p rest ih =>
    obtain ⟨k₀, v₀⟩ := p
    by_cases h0 : k₀ = k
    · subst h0
      by_cases h : k₀ = k' <;> simp [setKey, getKey?, h]
    · have hk : ¬ k = k₀ := fun he => h0 he.symm
      by_cases h1 : k₀ = k'
      · subst h1
        have hk' : ¬ k = k₀ := hk
        simp [setKey, getKey?, h0, hk']
      · simp [setKey, getKey?, h0, h1, ih]

theorem getKey?_eq_none_of_not_mem (c : Config) (k : String)
    (h : k ∉ c.map Prod.fst) : getKey? c k = none := by
  induction c with
  | nil => simp [getKey?]
  | cons p rest ih =>
    simp only [List.map_cons, List.mem_cons] at h
    push_neg at h
    obtain ⟨k₀, v₀⟩ := p
    have hne : ¬ k₀ = k := fun he => h.1 he.symm
    simp [getKey?, hne, ih h.2]

theorem getKey?_mergeDicts (a b : Config) (hb : (b.map Prod.fst).Nodup)
    (k : String) :
    getKey? (mergeDicts a b) k = orElseO (getKey? b k) (getKey? a k) := by
  induction b generalizing a with
  | nil => simp [mergeDicts, getKey?, orElseO]
  | cons p rest ih =>
    obtain ⟨k₀, v₀⟩ := p
    simp only [List.map_cons, List.nodup_cons] at hb
    have step : mergeDicts a ((k₀, v₀) :: rest) = mergeDicts (setKey a k₀ v₀) rest := by
      simp [mergeDicts]
    rw [step, ih (setKey a k₀ v₀) hb.2]
    by_cases h : k₀ = k
    · subst h
      have hnone : getKey? rest k₀ = none :=
        getKey?_eq_none_of_not_mem rest k₀ hb.1
      simp [getKey?, hnone, getKey?_setKey, orElseO]
    · simp [getKey?, h, getKey?_setKey]

/-! ## Submit-descriptor extraction (`_parse_submit_file`) -/

/-- Python `line.split('=', 1)` guarded by `'=' in line`: `none` when the
line holds no `=`, otherwise the text before the first `=` and the text
after it. -/
def splitEq1 (line : String) : Option (String × String) :=
  match line.splitOn "=" with
  | [] => none
  | [_] => none
  | k :: rest => some (k, String.intercalate "=" rest)

/-- One iteration of the `for line in f` loop of `_parse_submit_file`:
strip the line, skip blanks and `#` comments, split on the first `=`,
normalise the key, keep only the allow-listed resource keys. -/
def processLine (config : Config) (rawLine : String) : Config :=
  let line := rawLine.trim
  if line = "" then config
  else if line.startsWith "#" then config
  else
    match splitEq1 line with
    | none => config
    | some (k0, v0) =>
      let key := k0.trim.toLower
      let value := v0.trim
      if key = "request_cpus" ∨ key = "request_memory" ∨ key = "request_disk" then
        setKey config key (Val.str value)
      else if key = "executable" then
        setKey config "executable" (Val.str value)
      else if key = "universe" then
        setKey config "universe" (Val.str value)
      else config

/-- The loop of `_parse_submit_file` over the lines of the file. -/
def parseSubmitLines (lines : List String) : Config :=
  lines.foldl processLine []

/-- `_parse_submit_file`: `none` content stands for an unreadable file, in
which case the `except` handler returns the empty configuration. -/
def parseSubmitFile (content : Option String) : Config :=
  match content with
  | none => []
  | some c => parseSubmitLines (c.splitOn "\n")

/-- The fixed allow-list of submit-descriptor keys. -/
def allowedKeys : List String :=
  ["request_cpus", "request_memory", "request_disk", "executable", "universe"]

/-- The spec's description of one line's contribution: on a non-blank,
non-comment line containing `=`, lower-case and trim the text before the
first `=`, trim the text after it, and keep the pair exactly when the key is
allow-listed. -/
def specLinePair (rawLine : String) : Option (String × String) :=
  let line := rawLine.trim
  if line = "" ∨ line.startsWith "#" then none
  else
    match splitEq1 line with
    | none => none
    | some (k0, v0) =>
      if k0.trim.toLower ∈ allowedKeys then
        some (k0.trim.toLower, v0.trim)
      else none

/-- Build a dict from a pair list, in order. -/
def buildConfig (ps : List (String × String)) : Config :=
  ps.foldl (fun c p => setKey c p.1 (Val.str p.2)) []

/-! ## Completion-log extraction (`_parse_log_file`)

The three `re.search` calls are embedded as scanners over the character list
of the log text, with Python's leftmost-match semantics: the first position
at which the whole pattern matches wins, and a `\d+` run is the maximal digit
run starting at its position (the token after each `\d+` in the source
patterns never matches a digit, so greedy matching needs no backtracking).
-/

/-- Python `int` of a digit run. -/
def natOfDigits (ds : List Char) : Nat :=
  ds.foldl (fun n c => n * 10 + (c.toNat - 48)) 0

/-- The characters matched by `\s` in the source patterns (ASCII range). -/
def isPySpace (c : Char) : Bool :=
  c = ' ' || c = '\t' || c = '\n' || c = '\r' || c = '\x0b' || c = '\x0c'

/-- Try `\d+:\d+:\d+` anchored at the head of `cs`; the three captured
integers on success. -/
def tryTime (cs : List Char) : Option (Nat × Nat × Nat) :=
  let d1 := cs.takeWhile Char.isDigit
  if d1 = [] then none
  else
    match cs.drop d1.length with
    | ':' :: r2 =>
      let d2 := r2.takeWhile Char.isDigit
      if d2 = [] then none
      else
        match r2.drop d2.length with
        | ':' :: r3 =>
          let d3 := r3.takeWhile Char.isDigit
          if d3 = [] then none
          else some (natOfDigits d1, natOfDigits d2, natOfDigits d3)
        | _ => none
    | _ => none

/-- Leftmost match of `\d+:\d+:\d+` in `cs`. -/
def findTime : List Char → Option (Nat × Nat × Nat)
  | [] => none
  | c :: rest =>
    match tryTime (c :: rest) with
    | some t => some t
    | none => findTime rest

/-- The suffix right after the first occurrence of `pat` in the text
(`none` when `pat` does not occur). -/
def afterFirst (pat : List Char) : List Char → Option (List Char)
  | [] => none
  | c :: rest =>
    if pat.isPrefixOf (c :: rest) then some ((c :: rest).drop pat.length)
    else afterFirst pat rest

/-- `re.search(r'Job terminated.*?run time.*?(\d+:\d+:\d+)', content,
re.DOTALL)`: the first `Job terminated`, then the first `run time` after it,
then the first `H:MM:SS` group after that. -/
def findRunTime (cs : List Char) : Option (Nat × Nat × Nat) :=
  match afterFirst "Job terminated".data cs with
  | none => none
  | some s1 =>
    match afterFirst "run time".data s1 with
    | none => none
    | some s2 => findTime s2

/-- The `\s*:\s*(\d+)` tail of the memory/disk patterns, anchored at the head
of `cs`. -/
def tryColonNum (cs : List Char) : Option Nat :=
  match cs.dropWhile isPySpace with
  | ':' :: r =>
    let ds := (r.dropWhile isPySpace).takeWhile Char.isDigit
    if ds = [] then none else some (natOfDigits ds)
  | _ => none

/-- `re.search(<label> ++ r'\s*:\s*(\d+)', content)`: the first occurrence of
the literal label whose tail also matches, and its captured integer. -/
def findLabeledNum (pat : List Char) : List Char → Option Nat
  | [] => none
  | c :: rest =>
    if pat.isPrefixOf (c :: rest) then
      match tryColonNum ((c :: rest).drop pat.length) with
      | some n => some n
      | none => findLabeledNum pat rest
    else findLabeledNum pat rest

/-- The metrics dictionary `_parse_log_file` can build: each field is present
exactly when its pattern matched. -/
structure ResourceMetrics where
  runtime_seconds : Option Nat := none
  memory_mb : Option Nat := none
  disk_kb : Option Nat := none
deriving DecidableEq, Repr

/-- Python truthiness of the metrics dict: empty means falsy. -/
def ResourceMetrics.isEmpty (m : ResourceMetrics) : Bool :=
  m.runtime_seconds.isNone && m.memory_mb.isNone && m.disk_kb.isNone

/-- The body of `_parse_log_file` on readable content: the three independent
pattern searches, runtime converted by `h * 3600 + m * 60 + s`, and
`return metrics if metrics else None`. -/
def parseLogContent (content : String) : Option ResourceMetrics :=
  let cs := content.data
  let m : ResourceMetrics :=
    { runtime_seconds :=
        (findRunTime cs).map (fun t => t.1 * 3600 + t.2.1 * 60 + t.2.2)
      memory_mb := findLabeledNum "Memory (MB)".data cs
      disk_kb := findLabeledNum "Disk (KB)".data cs }
  if m.isEmpty then none else some m

/-- `_parse_log_file`: `none` content stands for an unreadable file, in which
case the `except` handler returns `None`. -/
def parseLogFile (content : Option String) : Option ResourceMetrics :=
  match content with
  | none => none
  | some c => parseLogContent c

/-! ## Run identity (`init_run`) -/

/-- `run_name = name or f"chtc-job-{job_id}" if job_id else None`. Python
parses this as `(name or f"chtc-job-{job_id}") if job_id else None`, and `or`
takes the second operand when `name` is `None` or empty. -/
def initRunName (name : Option String) (job_id : Option String) : Option String :=
  match job_id with
  | some j =>
    if j = "" then none
    else
      match name with
      | some n => if n = "" then some ("chtc-job-" ++ j) else some n
      | none => some ("chtc-job-" ++ j)
  | none => none

/-- `run_tags = tags or []; run_tags.append("chtc")`. -/
def initRunTags (tags : Option (List String)) : List String :=
  tags.getD [] ++ ["chtc"]

/-- The config mutation of `init_run`: `config = config or {}`, then
`config['htcondor_job_id'] = job_id` when `job_id` is truthy, then
`config['cluster'] = 'chtc'`. -/
def initRunConfig (config : Option Config) (job_id : Option String) : Config :=
  let c := config.getD []
  let c :=
    match job_id with
    | some j => if j = "" then c else setKey c "htcondor_job_id" (Val.str j)
    | none => c
  setKey c "cluster" (Val.str "chtc")

/-! ## The facade (`log_job_submission`, `log_job_completion`)

Both operations talk to the filesystem and to the WandB backend. The
environment below fixes the outcome of every external step: the readable
local files with their contents, whether `wandb.init` succeeds for creation
and for must-resumption, the run id the backend assigns, and whether each
`run.log` / `run.log_artifact` network call succeeds. `Artifact.add_file`
raises when the path does not exist on the local filesystem, per the wandb
client's contract; the source itself guards its other `add_file` calls with
`os.path.exists`, but not the one in `log_job_submission`.

An operation's result is the list of backend events that were carried out
together with either the returned value or the first propagated exception,
in program order. The source wraps nothing after `wandb.init` in
`try`/`finally`, so an exception abandons the rest of the body, including
`run.finish()`.
-/

/-- A Python exception surfaced to the caller of the facade. -/
inductive PyError where
  | initFailed
  | runNotResumable
  | fileNotFound (path : String)
  | logFailed
  | artifactFailed (name : String)
deriving DecidableEq, Repr

/-- A backend operation carried out on behalf of a run. -/
inductive Event where
  | initNew (project : String) (name : Option String) (config : Config)
      (tags : List String)
  | resumeRun (run_id : String)
  | logMetrics (m : ResourceMetrics)
  | logExtra (m : Config)
  | logArtifact (name ty : String) (files : List String)
  | finish
deriving DecidableEq, Repr

/-- `Event.finish`? -/
def Event.isFinish : Event → Bool
  | .finish => true
  | _ => false

/-- A run-creating `Event.initNew`? -/
def Event.isInitNew : Event → Bool
  | .initNew _ _ _ _ => true
  | _ => false

/-- The fixed outcomes of the external world for one invocation. -/
structure Env where
  files : String → Option String
  createOk : Bool
  newRunId : String
  resumeOk : String → Bool
  logMetricsOk : Bool
  logExtraOk : Bool
  artifactOk : String → Bool

/-- Partial execution state: events so far, and normal flow or a raised
exception. -/
abbrev StepState := List Event × Except PyError Unit

/-- Run `next` only when no exception has been raised yet. -/
def andThen (st : StepState) (next : List Event → StepState) : StepState :=
  match st with
  | (evs, Except.ok _) => next evs
  | (evs, Except.error e) => (evs, Except.error e)

/-- Record `e` when the backend call succeeds, raise `err` otherwise. -/
def stepIf (evs : List Event) (ok : Bool) (e : Event) (err : PyError) :
    StepState :=
  if ok then (evs ++ [e], Except.ok ()) else (evs, Except.error err)

/-- The config `log_job_submission` hands to `init_run`, as `init_run`
mutates it: `{**submit_config, **(config or {})}`, then the job id and the
cluster marker. -/
def submissionRunConfig (submit_config extra : Config) (job_id : String) :
    Config :=
  initRunConfig (some (mergeDicts submit_config extra)) (some job_id)

/-- `log_job_submission`: parse the submit file, merge configs, open a run
via `init_run`, attach the submit file, read `run.id`, finish, return the
id. -/
def log_job_submission (env : Env) (project : String) (submit_file : String)
    (job_id : String) (config : Option Config) :
    List Event × Except PyError String :=
  let submit_config := parseSubmitFile (env.files submit_file)
  let run_name := initRunName none (some job_id)
  let run_tags := initRunTags none
  let run_config := submissionRunConfig submit_config (config.getD []) job_id
  if env.createOk then
    let ev0 : List Event := [Event.initNew project run_name run_config run_tags]
    if (env.files submit_file).isSome then
      if env.artifactOk ("submit-" ++ job_id) then
        (ev0 ++ [Event.logArtifact ("submit-" ++ job_id) "submit_file" [submit_file],
                 Event.finish],
         Except.ok env.newRunId)
      else (ev0, Except.error (PyError.artifactFailed ("submit-" ++ job_id)))
    else (ev0, Except.error (PyError.fileNotFound submit_file))
  else ([], Except.error PyError.initFailed)

/-- `if log_file and os.path.exists(log_file):` — parse the log, log the
resource metrics when non-empty, attach the log file. -/
def completionLogStep (env : Env) (run_id : String) (log_file : Option String)
    (evs : List Event) : StepState :=
  match log_file with
  | none => (evs, Except.ok ())
  | some lf =>
    if lf = "" then (evs, Except.ok ())
    else
      match env.files lf with
      | none => (evs, Except.ok ())
      | some content =>
        let s1 :=
          match parseLogContent content with
          | some ru => stepIf evs env.logMetricsOk (Event.logMetrics ru) PyError.logFailed
          | none => (evs, Except.ok ())
        andThen s1 (fun evs1 =>
          stepIf evs1 (env.artifactOk ("logs-" ++ run_id))
            (Event.logArtifact ("logs-" ++ run_id) "logs" [lf])
            (PyError.artifactFailed ("logs-" ++ run_id)))

/-- `if metrics: run.log(metrics)`. -/
def completionMetricsStep (env : Env) (metrics : Option Config)
    (evs : List Event) : StepState :=
  match metrics with
  | none => (evs, Except.ok ())
  | some m =>
    if m = [] then (evs, Except.ok ())
    else stepIf evs env.logExtraOk (Event.logExtra m) PyError.logFailed

/-- `if output_files:` — build the `results` artifact from the output paths
that exist, and attach it. -/
def completionOutputsStep (env : Env) (run_id : String)
    (output_files : Option (List String)) (evs : List Event) : StepState :=
  match output_files with
  | none => (evs, Except.ok ())
  | some ofs =>
    if ofs = [] then (evs, Except.ok ())
    else
      stepIf evs (env.artifactOk ("outputs-" ++ run_id))
        (Event.logArtifact ("outputs-" ++ run_id) "results"
          (ofs.filter (fun f => (env.files f).isSome)))
        (PyError.artifactFailed ("outputs-" ++ run_id))

/-- The body of `log_job_completion` after a successful must-resume. -/
def completionBody (env : Env) (run_id : String) (log_file : Option String)
    (output_files : Option (List String)) (metrics : Option Config) :
    StepState :=
  let s1 : StepState := ([Event.resumeRun run_id], Except.ok ())
  let s2 := andThen s1 (completionLogStep env run_id log_file)
  let s3 := andThen s2 (completionMetricsStep env metrics)
  andThen s3 (completionOutputsStep env run_id output_files)

/-- `log_job_completion`: `wandb.init(id=run_id, resume="must")`, then the
log-file, metrics and output-file steps, then `run.finish()`. -/
def log_job_completion (env : Env) (run_id : String) (log_file : Option String)
    (output_files : Option (List String)) (metrics : Option Config) :
    List Event × Except PyError Unit :=
  if env.resumeOk run_id then
    andThen (completionBody env run_id log_file output_files metrics)
      (fun evs => (evs ++ [Event.finish], Except.ok ()))
  else ([], Except.error PyError.runNotResumable)

/-- Did the call return normally (no propagated exception)? -/
def isOkE {α : Type} : Except PyError α → Bool
  | Except.ok _ => true
  | Except.error _ => false

/-! ## Helper lemmas -/

theorem processLine_eq_spec (cfg : Config) (l : String) :
    processLine cfg l =
      match specLinePair l with
      | none => cfg
      | some (k, v) => setKey cfg k (Val.str v) := by
  unfold processLine specLinePair
  by_cases h1 : l.trim = ""
  · simp [h1]
  · by_cases h2 : l.trim.startsWith "#"
    · simp [h1, h2]
    · simp only [h1, h2, if_false]
      cases hsp : splitEq1 l.trim with
      | none => simp
      | some kv =>
        obtain ⟨k0, v0⟩ := kv
        simp only
        by_cases hmem : k0.trim.toLower ∈ allowedKeys
        · simp only [allowedKeys, List.mem_cons, List.mem_singleton,
            List.not_mem_nil, or_false] at hmem
          rcases hmem with h | h | h | h | h <;> simp [h, allowedKeys]
        · simp only [allowedKeys, List.mem_cons, List.mem_singleton,
            List.not_mem_nil, or_false] at hmem
          push_neg at hmem
          obtain ⟨n1, n2, n3, n4, n5⟩ := hmem
          simp [allowedKeys, n1, n2, n3, n4, n5]

theorem parseSubmit_fold (cfg : Config) (lines : List String) :
    lines.foldl processLine cfg =
      (lines.filterMap specLinePair).foldl
        (fun c p => setKey c p.1 (Val.str p.2)) cfg := by
  induction lines generalizing cfg with
  | nil => rfl
  | cons l rest ih =>
    simp only [List.foldl_cons, List.filterMap_cons]
    rw [processLine_eq_spec]
    cases hl : specLinePair l with
    | none => exact ih cfg
    | some kv =>
      obtain ⟨k, v⟩ := kv
      simp only [List.foldl_cons]
      exact ih (setKey cfg k (Val.str v))

theorem specLinePair_key_allowed (l : String) (k v : String)
    (h : specLinePair l = some (k, v)) : k ∈ allowedKeys := by
  unfold specLinePair at h
  by_cases h1 : l.trim = ""
  · simp [h1] at h
  · by_cases h2 : l.trim.startsWith "#"
    · simp [h1, h2] at h
    · simp only [h1, h2, if_false] at h
      cases hsp : splitEq1 l.trim with
      | none => rw [hsp] at h; simp at h
      | some kv =>
        obtain ⟨k0, v0⟩ := kv
        rw [hsp] at h
        simp only at h
        by_cases hmem : k0.trim.toLower ∈ allowedKeys
        · rw [if_pos hmem] at h
          obtain ⟨hk, -⟩ := Prod.mk.injEq .. ▸ Option.some.injEq .. ▸ h
          exact hk ▸ hmem
        · rw [if_neg hmem] at h
          exact absurd h (by simp)

theorem getKey?_foldl_setKey (ps : List (String × String)) (acc : Config)
    (k : String) (v : Val)
    (h : getKey? (ps.foldl (fun c p => setKey c p.1 (Val.str p.2)) acc) k
      = some v) :
    (getKey? acc k).isSome = true ∨ ∃ p ∈ ps, p.1 = k := by
  induction ps generalizing acc with
  | nil =>
    simp only [List.foldl_nil] at h
    exact Or.inl (by rw [h]; rfl)
  | cons p rest ih =>
    obtain ⟨k0, v0⟩ := p
    simp only [List.foldl_cons] at h
    rcases ih (setKey acc k0 (Val.str v0)) h with hs | hex
    · rw [getKey?_setKey] at hs
      by_cases he : k0 = k
      · exact Or.inr ⟨(k0, v0), List.mem_cons_self _ _, he⟩
      · simp only [he, if_false] at hs
        exact Or.inl hs
    · obtain ⟨q, hq, hk⟩ := hex
      exact Or.inr ⟨q, List.mem_cons_of_mem _ hq, hk⟩

theorem parseSubmitFile_keys_allowed (content : Option String) (k : String)
    (v : Val) (h : getKey? (parseSubmitFile content) k = some v) :
    k ∈ allowedKeys := by
  cases content with
  | none => simp [parseSubmitFile, getKey?] at h
  | some c =>
    simp only [parseSubmitFile, parseSubmitLines] at h
    rw [parseSubmit_fold] at h
    rcases getKey?_foldl_setKey _ [] k v h with hs | hex
    · simp [getKey?] at hs
    · obtain ⟨p, hp, hk⟩ := hex
      obtain ⟨l, _, hl⟩ := List.mem_filterMap.mp hp
      exact hk ▸ specLinePair_key_allowed l p.1 p.2 (by
        obtain ⟨a, b⟩ := p
        exact hl)

/-- An event the completion body can emit between resume and finish. -/
def midEvent (x : Event) : Prop :=
  x.isInitNew = false ∧ x.isFinish = false

theorem mem_stepIf {evs : List Event} {ok : Bool} {e : Event} {err : PyError}
    {x : Event} (h : x ∈ (stepIf evs ok e err).1) : x ∈ evs ∨ x = e := by
  unfold stepIf at h
  by_cases hok : ok = true
  · rw [if_pos hok] at h
    simpa using h
  · rw [if_neg hok] at h
    exact Or.inl h

theorem mem_andThen {st : StepState} {next : List Event → StepState}
    {P : Event → Prop}
    (hnext : ∀ evs x, x ∈ (next evs).1 → x ∈ evs ∨ P x) :
    ∀ x, x ∈ (andThen st next).1 → x ∈ st.1 ∨ P x := by
  intro x h
  obtain ⟨evs, r⟩ := st
  cases r with
  | ok _ => exact hnext evs x h
  | error e => exact Or.inl h

theorem mem_completionLogStep {env : Env} {rid : String} {lf : Option String}
    {evs : List Event} {x : Event}
    (h : x ∈ (completionLogStep env rid lf evs).1) : x ∈ evs ∨ midEvent x := by
  unfold completionLogStep at h
  cases lf with
  | none => exact Or.inl h
  | some lf =>
    dsimp only at h
    by_cases he : lf = ""
    · rw [if_pos he] at h
      exact Or.inl h
    · rw [if_neg he] at h
      cases hf : env.files lf with
      | none => rw [hf] at h; exact Or.inl h
      | some content =>
        rw [hf] at h
        simp only at h
        have inner : ∀ evs1 x, x ∈ (stepIf evs1 (env.artifactOk ("logs-" ++ rid))
            (Event.logArtifact ("logs-" ++ rid) "logs" [lf])
            (PyError.artifactFailed ("logs-" ++ rid))).1 → x ∈ evs1 ∨ midEvent x := by
          intro evs1 y hy
          rcases mem_stepIf hy with hm | he'
          · exact Or.inl hm
          · exact Or.inr (he' ▸ ⟨rfl, rfl⟩)
        rcases mem_andThen inner x h with h1 | hm
        · cases hp : parseLogContent content with
          | none => rw [hp] at h1; exact Or.inl h1
          | some ru =>
            rw [hp] at h1
            rcases mem_stepIf h1 with hm' | he'
            · exact Or.inl hm'
            · exact Or.inr (he' ▸ ⟨rfl, rfl⟩)
        · exact Or.inr hm

theorem mem_completionMetricsStep {env : Env} {ms : Option Config}
    {evs : List Event} {x : Event}
    (h : x ∈ (completionMetricsStep env ms evs).1) : x ∈ evs ∨ midEvent x := by
  unfold completionMetricsStep at h
  cases ms with
  | none => exact Or.inl h
  | some m =>
    dsimp only at h
    by_cases hm : m = []
    · rw [if_pos hm] at h
      exact Or.inl h
    · rw [if_neg hm] at h
      rcases mem_stepIf h with h1 | he
      · exact Or.inl h1
      · exact Or.inr (he ▸ ⟨rfl, rfl⟩)

theorem mem_completionOutputsStep {env : Env} {rid : String}
    {ofs : Option (List String)} {evs : List Event} {x : Event}
    (h : x ∈ (completionOutputsStep env rid ofs evs).1) :
    x ∈ evs ∨ midEvent x := by
  unfold completionOutputsStep at h
  cases ofs with
  | none => exact Or.inl h
  | some fs =>
    dsimp only at h
    by_cases hm : fs = []
    · rw [if_pos hm] at h
      exact Or.inl h
    · rw [if_neg hm] at h
      rcases mem_stepIf h with h1 | he
      · exact Or.inl h1
      · exact Or.inr (he ▸ ⟨rfl, rfl⟩)

theorem mem_completionBody {env : Env} {rid : String} {lf : Option String}
    {ofs : Option (List String)} {ms : Option Config} {x : Event}
    (h : x ∈ (completionBody env rid lf ofs ms).1) :
    x = Event.resumeRun rid ∨ midEvent x := by
  unfold completionBody at h
  rcases mem_andThen (fun _ _ => mem_completionOutputsStep) x h with h1 | hm
  · rcases mem_andThen (fun _ _ => mem_completionMetricsStep) x h1 with h2 | hm
    · rcases mem_andThen (fun _ _ => mem_completionLogStep) x h2 with h3 | hm
      · exact Or.inl (by simpa using h3)
      · exact Or.inr hm
    · exact Or.inr hm
  · exact Or.inr hm

theorem mem_log_job_completion {env : Env} {rid : String} {lf : Option String}
    {ofs : Option (List String)} {ms : Option Config} {x : Event}
    (h : x ∈ (log_job_completion env rid lf ofs ms).1) :
    x = Event.resumeRun rid ∨ midEvent x ∨ x = Event.finish := by
  unfold log_job_completion at h
  by_cases hr : env.resumeOk rid = true
  · rw [if_pos hr] at h
    have hnext : ∀ evs y, y ∈ ((evs ++ [Event.finish] : List Event),
        (Except.ok () : Except PyError Unit)).1 → y ∈ evs ∨ y = Event.finish := by
      intro evs y hy
      simpa using hy
    rcases mem_andThen hnext x h with h1 | hfin
    · rcases mem_completionBody h1 with h2 | hm
      · exact Or.inl h2
      · exact Or.inr (Or.inl hm)
    · exact Or.inr (Or.inr hfin)
  · rw [if_neg hr] at h
    simp at h

theorem finish_not_mem_completionBody {env : Env} {rid : String}
    {lf : Option String} {ofs : Option (List String)} {ms : Option Config} :
    Event.finish ∉ (completionBody env rid lf ofs ms).1 := by
  intro h
  rcases mem_completionBody h with h1 | hm
  · exact absurd h1 (by simp)
  · exact absurd hm.2 (by simp [Event.isFinish])

theorem completionLogStep_ok (env : Env) (rid : String) (lf : Option String)
    (evs : List Event) (h1 : env.logMetricsOk = true)
    (h2 : env.artifactOk ("logs-" ++ rid) = true) :
    ∃ Δ, completionLogStep env rid lf evs = (evs ++ Δ, Except.ok ()) := by
  unfold completionLogStep
  cases lf with
  | none => exact ⟨[], by simp⟩
  | some lf =>
    dsimp only
    by_cases he : lf = ""
    · exact ⟨[], by simp [he]⟩
    · rw [if_neg he]
      cases hf : env.files lf with
      | none => exact ⟨[], by simp⟩
      | some content =>
        cases hp : parseLogContent content with
        | none =>
          exact ⟨[Event.logArtifact ("logs-" ++ rid) "logs" [lf]],
            by simp [andThen, stepIf, h2, hp]⟩
        | some ru =>
          exact ⟨[Event.logMetrics ru,
                  Event.logArtifact ("logs-" ++ rid) "logs" [lf]],
            by simp [andThen, stepIf, h1, h2, hp]⟩

theorem completionMetricsStep_ok (env : Env) (ms : Option Config)
    (evs : List Event) (h : env.logExtraOk = true) :
    ∃ Δ, completionMetricsStep env ms evs = (evs ++ Δ, Except.ok ()) := by
  unfold completionMetricsStep
  cases ms with
  | none => exact ⟨[], by simp⟩
  | some m =>
    dsimp only
    by_cases hm : m = []
    · exact ⟨[], by simp [hm]⟩
    · exact ⟨[Event.logExtra m], by simp [hm, stepIf, h]⟩

theorem completionOutputsStep_some (env : Env) (rid : String)
    (ofs : List String) (evs : List Event)
    (h : env.artifactOk ("outputs-" ++ rid) = true) (hne : ofs ≠ []) :
    completionOutputsStep env rid (some ofs) evs =
      (evs ++ [Event.logArtifact ("outputs-" ++ rid) "results"
        (ofs.filter (fun f => (env.files f).isSome))], Except.ok ()) := by
  unfold completionOutputsStep
  dsimp only
  rw [if_neg hne]
  simp [stepIf, h]

theorem mem_log_job_submission {env : Env} {p sf jid : String}
    {cfg : Option Config} {x : Event}
    (h : x ∈ (log_job_submission env p sf jid cfg).1) :
    x = Event.initNew p (initRunName none (some jid))
          (submissionRunConfig (parseSubmitFile (env.files sf)) (cfg.getD [])
            jid)
          (initRunTags none) ∨
    x = Event.logArtifact ("submit-" ++ jid) "submit_file" [sf] ∨
    x = Event.finish := by
  unfold log_job_submission at h
  by_cases h1 : env.createOk = true
  · rw [if_pos h1] at h
    dsimp only at h
    by_cases h2 : (env.files sf).isSome = true
    · rw [if_pos h2] at h
      by_cases h3 : env.artifactOk ("submit-" ++ jid) = true
      · rw [if_pos h3] at h
        simpa using h
      · rw [if_neg h3] at h
        simp only [List.mem_singleton] at h
        exact Or.inl h
    · rw [if_neg h2] at h
      simp only [List.mem_singleton] at h
      exact Or.inl h
  · rw [if_neg h1] at h
    simp at h

/-! ## The claims -/

/-- An environment whose local filesystem is empty and in which the extra
`run.log(metrics)` network call fails; everything else succeeds. -/
def envLogFail : Env :=
  { files := fun _ => none
    createOk := true
    newRunId := "run-000"
    resumeOk := fun _ => true
    logMetricsOk := true
    logExtraOk := false
    artifactOk := fun _ => true }

/-- An environment in which every backend call succeeds and exactly the file
`model.pt` exists locally. -/
def envAllOk : Env :=
  { files := fun p => if p = "model.pt" then some "bytes" else none
    createOk := true
    newRunId := "run-xyz"
    resumeOk := fun _ => true
    logMetricsOk := true
    logExtraOk := true
    artifactOk := fun _ => true }

/-- C1, counterexample: a completion call that successfully resumes its run
and then raises while logging the caller's metrics returns the exception
without ever executing the finish operation, so the run stays open — the
claimed guaranteed-release behaviour does not hold. -/
theorem c1_finish_counterexample :
    envLogFail.resumeOk "run-1" = true ∧
    (log_job_completion envLogFail "run-1" none none
        (some [("loss", Val.num 1)])).2 = Except.error PyError.logFailed ∧
    Event.finish ∉ (log_job_completion envLogFail "run-1" none none
        (some [("loss", Val.num 1)])).1 := by
  refine ⟨rfl, rfl, ?_⟩
  decide

/-- C1, amended: in both `log_job_submission` and `log_job_completion` the
finish operation is executed exactly on the exception-free executions: it
runs before a normal return, and an exception raised mid-operation (during
metric logging or artifact attachment) propagates without finishing the
run. -/
theorem c1_finish_iff_no_exception (env : Env)
    (project submit_file job_id : String) (config : Option Config)
    (run_id : String) (lf : Option String) (ofs : Option (List String))
    (ms : Option Config) :
    (Event.finish ∈ (log_job_submission env project submit_file job_id config).1
      ↔ isOkE (log_job_submission env project submit_file job_id config).2 = true) ∧
    (Event.finish ∈ (log_job_completion env run_id lf ofs ms).1
      ↔ isOkE (log_job_completion env run_id lf ofs ms).2 = true) := by
  constructor
  · unfold log_job_submission
    by_cases h1 : env.createOk = true
    · rw [if_pos h1]
      dsimp only
      by_cases h2 : (env.files submit_file).isSome = true
      · rw [if_pos h2]
        by_cases h3 : env.artifactOk ("submit-" ++ job_id) = true
        · rw [if_pos h3]
          simp [isOkE]
        · rw [if_neg h3]
          simp [isOkE]
      · rw [if_neg h2]
        simp [isOkE]
    · rw [if_neg h1]
      simp [isOkE]
  · unfold log_job_completion
    by_cases hr : env.resumeOk run_id = true
    · rw [if_pos hr]
      cases hbody : completionBody env run_id lf ofs ms with
      | mk evs r =>
        cases r with
        | ok u =>
          simp [andThen, isOkE]
        | error e =>
          have hnf : Event.finish ∉ evs := by
            have hb := @finish_not_mem_completionBody env run_id lf ofs ms
            rw [hbody] at hb
            exact hb
          simp [andThen, isOkE, hnf]
    · rw [if_neg hr]
      simp [isOkE]

/-- C2: a completion call whose run id the backend cannot must-resume fails
with the resumption error before any other backend operation (its trace is
empty), and no completion call ever creates a new run. -/
theorem c2_resume_must_fail_fast :
    (∀ (env : Env) (run_id : String) (lf : Option String)
        (ofs : Option (List String)) (ms : Option Config),
        env.resumeOk run_id = false →
        log_job_completion env run_id lf ofs ms =
          ([], Except.error PyError.runNotResumable)) ∧
    (∀ (env : Env) (run_id : String) (lf : Option String)
        (ofs : Option (List String)) (ms : Option Config) (p : String)
        (n : Option String) (c : Config) (t : List String),
        Event.initNew p n c t ∉ (log_job_completion env run_id lf ofs ms).1) := by
  constructor
  · intro env rid lf ofs ms h
    unfold log_job_completion
    rw [h]
    simp
  · intro env rid lf ofs ms p n c t h
    rcases mem_log_job_completion h with h1 | h2 | h3
    · exact absurd h1 (by simp)
    · exact absurd h2.1 (by simp [Event.isInitNew])
    · exact absurd h3 (by simp)

/-- Closed instance of C2 at a concrete environment: with resumption
failing, the completion call returns the resumption error with an empty
trace. -/
theorem c2_resume_must_fail_fast_witness :
    log_job_completion
        { envAllOk with resumeOk := fun _ => false } "run-7"
        (some "job.log") (some ["a.txt"]) (some [("x", Val.num 3)]) =
      ([], Except.error PyError.runNotResumable) :=
  c2_resume_must_fail_fast.1 _ "run-7" _ _ _ rfl

/-- C3, counterexample: when the submit descriptor path does not exist, the
submission call is not best-effort: `Artifact.add_file` raises, the call
fails instead of returning the run id, and the run is never finished. -/
theorem c3_submit_attach_counterexample :
    envLogFail.files "job.sub" = none ∧
    (log_job_submission envLogFail "proj" "job.sub" "123.0" none).2 =
      Except.error (PyError.fileNotFound "job.sub") ∧
    Event.finish ∉ (log_job_submission envLogFail "proj" "job.sub" "123.0" none).1 := by
  refine ⟨rfl, rfl, ?_⟩
  decide

/-- C3, amended: `log_job_submission` attaches the submit descriptor
unconditionally, with no existence check and no diagnostic-and-skip path; if
the descriptor path does not exist the attach raises, the call fails without
returning a run id, and the opened run is not finished. -/
theorem c3_submit_attach_unconditional (env : Env)
    (project submit_file job_id : String) (config : Option Config)
    (hc : env.createOk = true) (hf : env.files submit_file = none) :
    (log_job_submission env project submit_file job_id config).2 =
      Except.error (PyError.fileNotFound submit_file) ∧
    Event.finish ∉ (log_job_submission env project submit_file job_id config).1 := by
  unfold log_job_submission
  rw [if_pos hc]
  dsimp only
  rw [hf]
  exact ⟨rfl, by simp⟩

/-- Witness for C3's amended theorem at a concrete environment with no
files. -/
theorem c3_submit_attach_unconditional_witness :
    (log_job_submission envLogFail "p" "missing.sub" "9.9" none).2 =
      Except.error (PyError.fileNotFound "missing.sub") ∧
    Event.finish ∉ (log_job_submission envLogFail "p" "missing.sub" "9.9" none).1 :=
  c3_submit_attach_unconditional envLogFail "p" "missing.sub" "9.9" none rfl rfl

/-- C4: evaluation of the run-name derivation. With an explicit name and no
job id the code yields no name at all (the claim and the docstring say the
explicit name is used); with a job id present the explicit name is used, and
with no explicit name the name is the prefix `chtc-job-` plus the job id. -/
theorem c4_run_name_precedence :
    initRunName (some "myrun") none = none ∧
    initRunName (some "myrun") (some "123.0") = some "myrun" ∧
    initRunName none (some "123.0") = some ("chtc-job-" ++ "123.0") :=
  ⟨rfl, rfl, rfl⟩

/-- C5: submit-descriptor extraction returns exactly the dictionary built,
in line order, from the pairs whose key — the lower-cased, trimmed text
before the first `=` of a stripped non-blank non-comment line — is in the
allow-list, with the value trimmed; blank lines, `#`-comment lines and lines
without `=` contribute nothing. -/
theorem c5_submit_extraction_exact :
    (∀ lines : List String,
        parseSubmitLines lines = buildConfig (lines.filterMap specLinePair)) ∧
    (∀ (cfg : Config) (l : String),
        l.trim = "" ∨ l.trim.startsWith "#" ∨ splitEq1 l.trim = none →
        processLine cfg l = cfg) := by
  constructor
  · intro lines
    unfold parseSubmitLines buildConfig
    exact parseSubmit_fold [] lines
  · intro cfg l h
    unfold processLine
    by_cases h0 : l.trim = ""
    · simp [h0]
    · rcases h with h | h | h
      · exact absurd h h0
      · simp [h0, h]
      · by_cases h1 : l.trim.startsWith "#" <;> simp [h0, h1, h]

/-- The completion log of the spec's worked example. -/
def exampleLog : String :=
  "Job terminated.\n  Total run time 01:02:03\n  Memory (MB)        : 2048\n  Disk (KB)            : 512000\n"

/-- C6: whenever the runtime pattern captures `h:m:s`, completion-log
extraction records `runtime_seconds = h * 3600 + m * 60 + s`, and the memory
and disk fields are exactly the results of their own independent pattern
searches, whatever those are. -/
theorem c6_completion_log_fields (content : String) (h m s : Nat)
    (hrt : findRunTime content.data = some (h, m, s)) :
    parseLogContent content =
      some { runtime_seconds := some (h * 3600 + m * 60 + s)
             memory_mb := findLabeledNum "Memory (MB)".data content.data
             disk_kb := findLabeledNum "Disk (KB)".data content.data } := by
  simp only [parseLogContent]
  rw [hrt]
  simp [ResourceMetrics.isEmpty]

/-- Witness for C6 at the spec's worked example: runtime `01:02:03`, memory
2048, disk 512000 yield 3723 seconds, 2048 and 512000. -/
theorem c6_completion_log_fields_witness :
    parseLogContent exampleLog =
      some { runtime_seconds := some 3723
             memory_mb := some 2048
             disk_kb := some 512000 } := by
  rw [c6_completion_log_fields exampleLog 1 2 3 (by decide)]
  decide

/-- C7: the extraction functions return values rather than raising: an
unreadable submit descriptor yields the empty configuration and an
unreadable log yields the absent-metrics result; a log in which no pattern
matches yields the empty result rather than an error; a field whose pattern
does not match is omitted, never defaulted to zero; and a submit descriptor,
however malformed, yields a mapping holding only allow-listed keys. -/
theorem c7_parsers_never_raise :
    parseSubmitFile none = [] ∧
    parseLogFile none = none ∧
    (∀ content : String,
        findRunTime content.data = none →
        findLabeledNum "Memory (MB)".data content.data = none →
        findLabeledNum "Disk (KB)".data content.data = none →
        parseLogContent content = none) ∧
    (∀ (content : String) (r : ResourceMetrics),
        parseLogContent content = some r →
        findLabeledNum "Memory (MB)".data content.data = none →
        r.memory_mb = none) ∧
    (∀ (content : Option String) (k : String) (v : Val),
        getKey? (parseSubmitFile content) k = some v → k ∈ allowedKeys) ∧
    parseLogContent "no matching substrings here" = none := by
  refine ⟨rfl, rfl, ?_, ?_, parseSubmitFile_keys_allowed, by decide⟩
  · intro content h1 h2 h3
    simp [parseLogContent, h1, h2, h3, ResourceMetrics.isEmpty]
  · intro content r hr hm
    simp only [parseLogContent] at hr
    rw [hm] at hr
    split at hr
    · exact absurd hr (by simp)
    · obtain rfl := (Option.some.inj hr).symm
      rfl

/-- C8, counterexample: the run config of `log_job_submission` is not the
claimed merge-plus-injection: a caller-supplied `cluster` entry is
overwritten with `chtc` instead of winning the collision, and an empty
scheduler job id is not injected at all. -/
theorem c8_merge_inject_counterexample :
    getKey? (submissionRunConfig [] [("cluster", Val.str "local")] "7.0")
        "cluster" = some (Val.str "chtc") ∧
    getKey? (submissionRunConfig [] [("cluster", Val.str "local")] "")
        "cluster" = some (Val.str "chtc") ∧
    getKey? (submissionRunConfig [] [("cluster", Val.str "local")] "")
        "htcondor_job_id" = none := by
  decide

/-- C8, amended: on every key other than the injected `htcondor_job_id` and
the overwritten `cluster`, the run config is the merge of the extracted
submit config with the caller's extra config, the extra config winning each
collision; and a non-empty scheduler job id is injected under
`htcondor_job_id`. -/
theorem c8_merge_inject_amended (submit_config extra : Config)
    (job_id k : String) (hnd : (extra.map Prod.fst).Nodup)
    (hk1 : k ≠ "htcondor_job_id") (hk2 : k ≠ "cluster") :
    getKey? (submissionRunConfig submit_config extra job_id) k
      = orElseO (getKey? extra k) (getKey? submit_config k) ∧
    (job_id ≠ "" →
      getKey? (submissionRunConfig submit_config extra job_id)
        "htcondor_job_id" = some (Val.str job_id)) := by
  unfold submissionRunConfig initRunConfig
  constructor
  · dsimp only [Option.getD]
    by_cases hj : job_id = ""
    · rw [if_pos hj, getKey?_setKey, if_neg (Ne.symm hk2)]
      exact getKey?_mergeDicts _ _ hnd k
    · rw [if_neg hj, getKey?_setKey, if_neg (Ne.symm hk2), getKey?_setKey,
        if_neg (Ne.symm hk1)]
      exact getKey?_mergeDicts _ _ hnd k
  · intro hj
    dsimp only [Option.getD]
    rw [if_neg hj, getKey?_setKey,
      if_neg (by decide : ¬ ("cluster" : String) = "htcondor_job_id"),
      getKey?_setKey, if_pos rfl]

/-- Witness for C8's amended theorem at concrete dictionaries: the extra
config wins the `lr` collision and the job id `77.0` is injected. -/
theorem c8_merge_inject_amended_witness :
    getKey? (submissionRunConfig
        [("request_cpus", Val.str "4"), ("lr", Val.str "a")]
        [("lr", Val.str "b"), ("epochs", Val.num 2)] "77.0") "lr"
      = some (Val.str "b") ∧
    getKey? (submissionRunConfig
        [("request_cpus", Val.str "4"), ("lr", Val.str "a")]
        [("lr", Val.str "b"), ("epochs", Val.num 2)] "77.0") "htcondor_job_id"
      = some (Val.str "77.0") := by
  have h := c8_merge_inject_amended
      [("request_cpus", Val.str "4"), ("lr", Val.str "a")]
      [("lr", Val.str "b"), ("epochs", Val.num 2)] "77.0" "lr"
      (by decide) (by decide) (by decide)
  exact ⟨h.1.trans (by decide), h.2 (by decide)⟩

/-- C9: a completion call given a mix of existing and non-existing output
paths attaches a `results` artifact holding exactly the existing ones, and
the non-existing paths do not make the call fail. -/
theorem c9_outputs_artifact_filtered (env : Env) (run_id : String)
    (lf : Option String) (ofs : List String) (ms : Option Config)
    (hres : env.resumeOk run_id = true) (hlog : env.logMetricsOk = true)
    (hextra : env.logExtraOk = true) (hart : ∀ a, env.artifactOk a = true)
    (hne : ofs ≠ []) :
    Event.logArtifact ("outputs-" ++ run_id) "results"
        (ofs.filter (fun f => (env.files f).isSome))
      ∈ (log_job_completion env run_id lf (some ofs) ms).1 ∧
    (log_job_completion env run_id lf (some ofs) ms).2 = Except.ok () := by
  obtain ⟨d1, e1⟩ := completionLogStep_ok env run_id lf
    [Event.resumeRun run_id] hlog (hart _)
  obtain ⟨d2, e2⟩ := completionMetricsStep_ok env ms
    ([Event.resumeRun run_id] ++ d1) hextra
  have e3 := completionOutputsStep_some env run_id ofs
    (([Event.resumeRun run_id] ++ d1) ++ d2) (hart _) hne
  unfold log_job_completion completionBody
  rw [if_pos hres]
  dsimp only
  simp only [andThen]
  rw [e1]
  simp only [andThen]
  rw [e2]
  simp only [andThen]
  rw [e3]
  simp only [andThen]
  constructor
  · simp
  · trivial

/-- Witness for C9 at a concrete environment: of the output list
`[model.pt, gone.txt]`, only the existing `model.pt` enters the `results`
artifact, and the call returns normally. -/
theorem c9_outputs_artifact_filtered_witness :
    Event.logArtifact ("outputs-" ++ "r1") "results" ["model.pt"]
      ∈ (log_job_completion envAllOk "r1" none
          (some ["model.pt", "gone.txt"]) none).1 ∧
    (log_job_completion envAllOk "r1" none
        (some ["model.pt", "gone.txt"]) none).2 = Except.ok () := by
  have h := c9_outputs_artifact_filtered envAllOk "r1" none
    ["model.pt", "gone.txt"] none rfl rfl rfl (fun a => rfl) (by decide)
  have hf : (["model.pt", "gone.txt"].filter
      (fun f => (envAllOk.files f).isSome)) = ["model.pt"] := by decide
  exact ⟨hf ▸ h.1, h.2⟩

/-- C10: every config `init_run` hands to the backend has `cluster = chtc`,
whatever the caller or descriptor supplied for that key, and so does the
config of every run `log_job_submission` creates. -/
theorem c10_cluster_always_chtc :
    (∀ (config : Option Config) (job_id : Option String),
        getKey? (initRunConfig config job_id) "cluster" = some (Val.str "chtc")) ∧
    (∀ (env : Env) (project submit_file job_id : String)
        (config : Option Config) (p : String) (n : Option String) (c : Config)
        (t : List String),
        Event.initNew p n c t ∈
          (log_job_submission env project submit_file job_id config).1 →
        getKey? c "cluster" = some (Val.str "chtc")) := by
  constructor
  · intro config job_id
    unfold initRunConfig
    cases job_id with
    | none => simp [getKey?_setKey]
    | some j =>
      by_cases hj : j = "" <;> simp [hj, getKey?_setKey]
  · intro env project sf jid cfg p n c t h
    rcases mem_log_job_submission h with h1 | h2 | h3
    · have hc : c = submissionRunConfig (parseSubmitFile (env.files sf))
          (cfg.getD []) jid := by
        injection h1 with _ _ h _
      rw [hc]
      unfold submissionRunConfig initRunConfig
      by_cases hj : jid = "" <;> simp [hj, getKey?_setKey]
    · exact absurd h2 (by simp)
    · exact absurd h3 (by simp)

/-- Closed instance of C10: a submission whose extra config says
`cluster = local` still opens its run with `cluster = chtc`. -/
theorem c10_cluster_always_chtc_witness :
    getKey? (initRunConfig (some [("cluster", Val.str "local")]) (some "5.0"))
      "cluster" = some (Val.str "chtc") :=
  c10_cluster_always_chtc.1 (some [("cluster", Val.str "local")]) (some "5.0")

end WandbLogger
